import Mathlib

/-!
Verification of the natural-language specification of the AgentCore Memory
Browser front-end (`src/agentcore_memory_browser/static/js/app.js`) against a
shallow embedding of that JavaScript code in Lean.

The embedding models:
* JSON/JavaScript values (`JsValue`), truthiness, property access, string
  coercion, and object spread, as used by the code;
* the two client caches (`currentEventsData`, `currentRecordsData`) as
  insertion-ordered association lists, mirroring JavaScript object key order;
* the rendering functions `displayEvents` / `displayRecords` (cache update plus
  the structure of the markup they emit that the delete handlers later query);
* the delete workflow (`executeDeleteEvent` / `executeDeleteRecord`), the
  guarded entry points (`confirmDeleteEvent`, `confirmDeleteRecord`,
  `showEventJson`, `showRecordJson`), memory deselection
  (`handleMemorySelection`), URL construction with `encodeURIComponent`,
  error-message construction, `getSimplifiedNamespace`, and the content-preview
  extraction (`generateContentPreview` / `extractTextForPreview`).

Numbers are modelled as `Int` (the code never relies on non-integer or NaN
arithmetic), and property access on an object assumes unique keys, as produced
by `JSON.parse`.  Property access on `null`/`undefined` would throw in
JavaScript; theorems about list rendering therefore quantify over object-shaped
inputs where that matters.
-/

namespace AgentCoreBrowser

/-- JavaScript/JSON values as manipulated by app.js.  Objects keep their
properties in insertion order, which is the iteration order of
`Object.entries` and of object spread for the string keys used here. -/
inductive JsValue where
  | vStr : String → JsValue
  | vNum : Int → JsValue
  | vBool : Bool → JsValue
  | vNull : JsValue
  | vUndefined : JsValue
  | vObj : List (String × JsValue) → JsValue
  | vArr : List JsValue → JsValue

/-- JavaScript truthiness: `""`, `0`, `false`, `null`, `undefined` are falsy;
every object and array is truthy. -/
def jsTruthy : JsValue → Bool
  | .vStr s => s != ""
  | .vNum n => n != 0
  | .vBool b => b
  | .vNull => false
  | .vUndefined => false
  | .vObj _ => true
  | .vArr _ => true

/-- Property read `v[k]` for the string keys the code uses.  On objects it is
an own-property lookup; on every other value the named properties read here
(`eventId`, `recordId`, `content`, `detail`, the preview text fields, ...) are
`undefined` in JavaScript. -/
def getField (v : JsValue) (k : String) : JsValue :=
  match v with
  | .vObj kvs =>
    match kvs.find? (fun p => p.1 == k) with
    | some p => p.2
    | none => .vUndefined
  | _ => .vUndefined

/-- JavaScript `a || b` on values: the first operand when truthy, else the
second. -/
def jsOrVal (a b : JsValue) : JsValue := if jsTruthy a then a else b

mutual

/-- JavaScript `String(v)` coercion for the values that can reach a template
literal or an object key in the code. -/
def jsToString : JsValue → String
  | .vStr s => s
  | .vNum n => toString n
  | .vBool b => if b then "true" else "false"
  | .vNull => "null"
  | .vUndefined => "undefined"
  | .vObj _ => "[object Object]"
  | .vArr l => jsArrToString l

/-- `Array.prototype.toString`: elements joined by commas, with `null` and
`undefined` rendered as empty strings. -/
def jsArrToString : List JsValue → String
  | [] => ""
  | [v] => jsElemString v
  | v :: rest => jsElemString v ++ "," ++ jsArrToString rest

/-- One element of an array under `Array.prototype.toString`. -/
def jsElemString : JsValue → String
  | .vNull => ""
  | .vUndefined => ""
  | .vStr s => s
  | .vNum n => toString n
  | .vBool b => if b then "true" else "false"
  | .vObj _ => "[object Object]"
  | .vArr l => jsArrToString l

end

/-- `Object.keys(v).length`, used by `generateContentPreview` to decide whether
content/metadata are present: own enumerable keys of an object, indices of an
array or a string, nothing for primitives. -/
def jsKeysCount : JsValue → Nat
  | .vObj kvs => kvs.length
  | .vArr l => l.length
  | .vStr s => s.length
  | _ => 0

/-- Own enumerable properties of a value, as enumerated by object spread
`{...v}`: an object's key/value pairs, the indexed elements of an array or a
string, nothing for other primitives. -/
def objFields : JsValue → List (String × JsValue)
  | .vObj kvs => kvs
  | .vArr l => (l.enum).map (fun p => (toString p.1, p.2))
  | .vStr s => (s.data.enum).map (fun p => (toString p.1, JsValue.vStr (String.singleton p.2)))
  | _ => []

/-! ### The client caches as insertion-ordered string-keyed maps

`currentEventsData` and `currentRecordsData` are plain JavaScript objects keyed
by ID strings.  Assignment to an existing key keeps its position, assignment to
a new key appends, and `delete` removes the key. -/

/-- Key membership of the cache object. -/
def hasKey (m : List (String × JsValue)) (k : String) : Bool :=
  match m with
  | [] => false
  | p :: rest => p.1 == k || hasKey rest k

/-- `m[k]`, as an `Option` (`none` plays `undefined`). -/
def getKey (m : List (String × JsValue)) (k : String) : Option JsValue :=
  match m with
  | [] => none
  | p :: rest => if p.1 == k then some p.2 else getKey rest k

/-- `m[k] = v`: overwrite in place, or append a fresh key. -/
def setKey (m : List (String × JsValue)) (k : String) (v : JsValue) : List (String × JsValue) :=
  match m with
  | [] => [(k, v)]
  | p :: rest => if p.1 == k then (k, v) :: rest else p :: setKey rest k v

/-- `delete m[k]`. -/
def delKey (m : List (String × JsValue)) (k : String) : List (String × JsValue) :=
  match m with
  | [] => []
  | p :: rest => if p.1 == k then rest else p :: delKey rest k

/-- Object spread followed by extra assignments:
`{...v, k₁: w₁, k₂: w₂}` (used to attach `sessionId`/`actorId` to cached
events and `namespace` to cached records). -/
def spreadWith (v : JsValue) (extra : List (String × JsValue)) : JsValue :=
  .vObj (extra.foldl (fun kvs p => setKey kvs p.1 p.2) (objFields v))

/-! ### String search and `String.prototype.replace` with a string pattern -/

/-- Whether `pat` is a prefix of `s` (character lists). -/
def isPrefixList : List Char → List Char → Bool
  | [], _ => true
  | _ :: _, [] => false
  | a :: as, b :: bs => a == b && isPrefixList as bs

/-- Index of the first occurrence of `pat` in `s`, starting the count at `i`
(JavaScript `String.prototype.indexOf` restricted to what the code needs). -/
def findSubstrAux (pat : List Char) : List Char → Nat → Option Nat
  | [], i => if isPrefixList pat [] then some i else none
  | c :: rest, i =>
    if isPrefixList pat (c :: rest) then some i else findSubstrAux pat rest (i + 1)

/-- JavaScript `String.prototype.includes` with a plain string argument. -/
def containsSubstr (s pat : String) : Bool := (findSubstrAux pat.data s.data 0).isSome

/-- The `GetSubstitution` processing JavaScript applies to the replacement
string of `String.prototype.replace`: `$$`, `$&`, a dollar followed by a
backtick, and `$'` are interpreted; any other character is copied.  `matched`
is the matched substring, `before`/`after` the surrounding portions. -/
def dollarSubst (matched before after : List Char) : List Char → List Char
  | [] => []
  | [c] => [c]
  | c :: d :: rest2 =>
    if c = '$' then
      if d = '$' then '$' :: dollarSubst matched before after rest2
      else if d = '&' then matched ++ dollarSubst matched before after rest2
      else if d = Char.ofNat 96 then before ++ dollarSubst matched before after rest2
      else if d = '\'' then after ++ dollarSubst matched before after rest2
      else c :: dollarSubst matched before after (d :: rest2)
    else c :: dollarSubst matched before after (d :: rest2)

/-- JavaScript `s.replace(pat, repl)` with a STRING pattern: only the first
occurrence is replaced, and the replacement goes through `dollarSubst`. -/
def jsReplaceFirst (s pat repl : String) : String :=
  match findSubstrAux pat.data s.data 0 with
  | none => s
  | some i =>
    ⟨s.data.take i ++
      dollarSubst pat.data (s.data.take i) (s.data.drop (i + pat.data.length)) repl.data ++
      s.data.drop (i + pat.data.length)⟩

/-- Plain first-occurrence substitution (no `$`-processing); used to state what
`jsReplaceFirst` does on dollar-free replacement strings. -/
def replaceFirstPlain (s pat repl : String) : String :=
  match findSubstrAux pat.data s.data 0 with
  | none => s
  | some i => ⟨s.data.take i ++ repl.data ++ s.data.drop (i + pat.data.length)⟩

/-! ### `encodeURIComponent` -/

/-- The characters `encodeURIComponent` leaves unescaped:
ASCII alphanumerics and `- _ . ! ~ * ' ( )`. -/
def isUnreservedChar (c : Char) : Bool :=
  c.isAlphanum || c = '-' || c = '_' || c = '.' || c = '!' || c = '~' || c = '*' ||
    c = '\'' || c = '(' || c = ')'

/-- Uppercase hexadecimal digits. -/
def hexChars : List Char :=
  ['0', '1', '2', '3', '4', '5', '6', '7', '8', '9', 'A', 'B', 'C', 'D', 'E', 'F']

/-- The `n`-th uppercase hexadecimal digit (`n < 16` in every use). -/
def hexDigit (n : Nat) : Char := hexChars.getD n '0'

/-- UTF-8 encoding of a scalar value, as byte values. -/
def utf8Bytes (c : Char) : List Nat :=
  let n := c.toNat
  if n < 128 then [n]
  else if n < 2048 then [192 + n / 64, 128 + n % 64]
  else if n < 65536 then [224 + n / 4096, 128 + (n / 64) % 64, 128 + n % 64]
  else [240 + n / 262144, 128 + (n / 4096) % 64, 128 + (n / 64) % 64, 128 + n % 64]

/-- `encodeURIComponent` on one character: the character itself when
unreserved, otherwise `%XX` for each UTF-8 byte. -/
def encodeChar (c : Char) : List Char :=
  if isUnreservedChar c then [c]
  else (utf8Bytes c).flatMap (fun b => ['%', hexDigit (b / 16), hexDigit (b % 16)])

/-- JavaScript `encodeURIComponent`. -/
def encodeURIComponent (s : String) : String := ⟨s.data.flatMap encodeChar⟩

/-! ### Content preview extraction (`extractTextForPreview`,
`generateContentPreview`) -/

/-- The priority-ordered keys searched by `extractTextForPreview`. -/
def textFields : List String := ["text", "content", "message", "description", "summary", "value"]

/-- One top-level probe of the loop body:
`if (obj[field] && typeof obj[field] === 'string') return obj[field]`. -/
def fieldHit (obj : JsValue) (f : String) : Option String :=
  match getField obj f with
  | .vStr s => if s == "" then none else some s
  | _ => none

/-- One nested probe of the loop body:
`if (obj.content && obj.content[field] && typeof obj.content[field] === 'string')`. -/
def nestedHit (obj : JsValue) (f : String) : Option String :=
  if jsTruthy (getField obj "content") then fieldHit (getField obj "content") f else none

/-- The `for (const field of textFields)` loop of `extractTextForPreview`: for
each key in order, probe the top level, then one level under `content`, before
moving to the next key. -/
def loopTextFields (obj : JsValue) : List String → Option String
  | [] => none
  | f :: rest =>
    match fieldHit obj f with
    | some s => some s
    | none =>
      match nestedHit obj f with
      | some s => some s
      | none => loopTextFields obj rest

/-- The fallback scan `extractStrings`: collect, in property-iteration order,
every string strictly longer than 10 characters, stopping below depth 3.  The
fuel argument is `4 - depth`, so the root call uses fuel 4 and the JavaScript
guard `if (depth > 3) return` is fuel 0. -/
def extractStrings : Nat → JsValue → List String
  | 0, _ => []
  | fuel + 1, v =>
    match v with
    | .vStr s => if s.length > 10 then [s] else []
    | .vObj kvs => kvs.flatMap (fun p => extractStrings fuel p.2)
    | .vArr l => l.flatMap (fun w => extractStrings fuel w)
    | _ => []

/-- `extractTextForPreview(obj)` from app.js. -/
def extractTextForPreview (obj : JsValue) : String :=
  if jsTruthy obj = false then ""
  else
    match loopTextFields obj textFields with
    | some s => s
    | none =>
      match extractStrings 4 obj with
      | [] => "Complex data structure"
      | s :: _ => s

/-- First hit of a probe function over a key list (used to state the spec's
two-pass reading of the search order). -/
def firstHit (F : String → Option String) : List String → Option String
  | [] => none
  | f :: rest =>
    match F f with
    | some s => some s
    | none => firstHit F rest

/-- Modelled from the spec's words (claim C7): the six keys are all checked at
the top level first, and only then checked nested one level under `content`;
the fallback scan and the "Complex data structure" marker are as in the code. -/
def specTopLevelFirstPreview (obj : JsValue) : String :=
  if jsTruthy obj = false then ""
  else
    match firstHit (fieldHit obj) textFields with
    | some s => s
    | none =>
      match firstHit (nestedHit obj) textFields with
      | some s => s
      | none =>
        match extractStrings 4 obj with
        | [] => "Complex data structure"
        | s :: _ => s

/-- `content && Object.keys(content).length > 0`, the guard
`generateContentPreview` uses for both arguments. -/
def hasContentB (v : JsValue) : Bool := jsTruthy v && decide (jsKeysCount v > 0)

/-- The `fullContent` object `generateContentPreview` builds:
`{}`, then `fullContent.content = content` when present, then
`fullContent.metadata = metadata` when present. -/
def fullContentObj (content metadata : JsValue) : JsValue :=
  .vObj ((if hasContentB content then [("content", content)] else []) ++
    (if hasContentB metadata then [("metadata", metadata)] else []))

/-- `escapeHtml`: what assigning to `textContent` and reading back `innerHTML`
escapes (`&`, `<`, `>`). -/
def escapeHtml (s : String) : String :=
  ⟨s.data.flatMap (fun c =>
    if c = '&' then "&amp;".data
    else if c = '<' then "&lt;".data
    else if c = '>' then "&gt;".data
    else [c])⟩

/-- Result of `generateContentPreview`: the "No Content" badge, an escaped
(possibly truncated) text preview, or the "no preview available" marker. -/
inductive Preview where
  | noContent : Preview
  | textP : String → Preview
  | noPreview : Preview
deriving DecidableEq

/-- `generateContentPreview(content, metadata)` from app.js.  Truncation takes
the first 100 characters and appends an ellipsis. -/
def generateContentPreview (content metadata : JsValue) : Preview :=
  if hasContentB content = false ∧ hasContentB metadata = false then .noContent
  else
    let t := extractTextForPreview (fullContentObj content metadata)
    if t != "" then
      .textP (escapeHtml (if t.length > 100 then (⟨t.data.take 100⟩ : String) ++ "..." else t))
    else .noPreview

/-! ### `getSimplifiedNamespace` -/

/-- The slice of a strategy object that `getSimplifiedNamespace` reads.
`namespaces = none` models a missing (`undefined`/`null`) list. -/
structure Strategy where
  namespaces : Option (List String)
  strategyId : String

/-- `getSimplifiedNamespace(strategy)` from app.js: `'/default/'` when the
namespaces list is missing or empty, otherwise `namespaces[0]` with the first
occurrence of `\x7bmemoryStrategyId\x7d` replaced (JavaScript `String.replace`
semantics) by `strategyId`. -/
def getSimplifiedNamespace (s : Strategy) : String :=
  match s.namespaces with
  | none => "/default/"
  | some nss =>
    if nss.length = 0 then "/default/"
    else
      let ns := nss.headD ""
      if containsSubstr ns "{memoryStrategyId}" then
        jsReplaceFirst ns "{memoryStrategyId}" s.strategyId
      else ns

/-! ### Rendered results containers

A workflow's results container is modelled as its list of child elements, in
document order, keeping exactly the structure the delete handlers later
navigate: `displayEvents` renders a single `.table-responsive` wrapper whose
FIRST child holds the `N event(s)` badge and whose table holds one row per
event; `displayRecords` renders a header `div` (an `h6` plus a `small` count
line, no `.badge` element) FOLLOWED by the `.table-responsive` wrapper.  Rows
are identified by their `data-event-id`/`data-record-id` attribute. -/

/-- A child element of a results container. -/
inductive RElem where
  /-- An `alert-info` box (the "No events/records found" message). -/
  | infoAlert : String → RElem
  /-- An `alert-danger` box rendered by `showError`. -/
  | errorBanner : String → RElem
  /-- The records header: the inner HTML of its `small` count line. -/
  | headerSmall : String → RElem
  /-- A `.table-responsive` wrapper: the text of a `.badge` contained in it
  (if any) and the row IDs of its table body. -/
  | tableResp : Option String → List String → RElem
deriving DecidableEq

/-- Row IDs rendered inside an element. -/
def rowsOf : RElem → List String
  | .tableResp _ rows => rows
  | _ => []

/-- `querySelector('.badge')` scoped to one element: only the events table
wrapper contains a badge; the records header's `small` has no `.badge`. -/
def elemBadge : RElem → Option String
  | .tableResp b _ => b
  | _ => none

/-- `querySelector('small')` scoped to one element. -/
def elemSmall : RElem → Option String
  | .headerSmall t => some t
  | _ => none

/-- Replace the text of the badge inside an element, when it has one. -/
def setBadgeText : RElem → String → RElem
  | .tableResp (some _) rows, t => .tableResp (some t) rows
  | e, _ => e

/-- Replace the inner HTML of the `small` inside an element, when it has one. -/
def setSmallText : RElem → String → RElem
  | .headerSmall _, t => .headerSmall t
  | e, _ => e

/-- Remove the first row with the given ID from an element's table. -/
def removeRowElem : RElem → String → RElem
  | .tableResp b rows, rid => .tableResp b (rows.erase rid)
  | e, _ => e

/-- Modify the `n`-th element of a list in place. -/
def listModify (l : List RElem) (n : Nat) (f : RElem → RElem) : List RElem :=
  match l, n with
  | [], _ => []
  | e :: rest, 0 => f e :: rest
  | e :: rest, n + 1 => e :: listModify rest n f

/-- The event ID string under which a fetched event is keyed and rendered:
`String(event.eventId)`. -/
def eventKey (e : JsValue) : String := jsToString (getField e "eventId")

/-- `displayEvents(container, events, sessionId, actorId)`: on a missing or
empty list, render the "No events found" alert and leave the cache untouched;
otherwise rebuild the events cache from scratch (each event spread together
with the query's `sessionId`/`actorId`) and render the table, whose badge sits
inside the `.table-responsive` wrapper. -/
def displayEvents (prior : List (String × JsValue)) (events : Option (List JsValue))
    (sessionId actorId : String) : List (String × JsValue) × List RElem :=
  match events with
  | none => (prior, [.infoAlert "No events found."])
  | some evs =>
    if evs.isEmpty then (prior, [.infoAlert "No events found."])
    else
      (evs.foldl
        (fun m e => setKey m (eventKey e)
          (spreadWith e [("sessionId", .vStr sessionId), ("actorId", .vStr actorId)])) [],
       [.tableResp (some (toString evs.length ++ " event(s)")) (evs.map eventKey)])

/-- `record.recordId || record.memoryRecordId`. -/
def recordKeyVal (r : JsValue) : JsValue :=
  jsOrVal (getField r "recordId") (getField r "memoryRecordId")

/-- The row ID a record is rendered under:
`record.recordId || record.memoryRecordId || 'N/A'`. -/
def recordRowId (r : JsValue) : String := jsToString (jsOrVal (recordKeyVal r) (.vStr "N/A"))

/-- `displayRecords(container, records, namespace)`: on a missing or empty
list, render the "No records found" alert and leave the cache untouched;
otherwise rebuild the records cache from scratch, caching ONLY records whose
`recordId || memoryRecordId` is truthy (each spread together with the query's
namespace), and render the header (with the `small` count line) followed by
the table with one row per record. -/
def displayRecords (prior : List (String × JsValue)) (records : Option (List JsValue))
    (ns : String) : List (String × JsValue) × List RElem :=
  match records with
  | none => (prior, [.infoAlert ("No records found in namespace: " ++ ns)])
  | some rs =>
    if rs.isEmpty then (prior, [.infoAlert ("No records found in namespace: " ++ ns)])
    else
      (rs.foldl
        (fun m r =>
          if jsTruthy (recordKeyVal r) then
            setKey m (jsToString (recordKeyVal r)) (spreadWith r [("namespace", .vStr ns)])
          else m) [],
       [.headerSmall ("Namespace: <code>" ++ ns ++ "</code> • Found " ++
          toString rs.length ++ " record(s)"),
        .tableResp none (rs.map recordRowId)])

/-! ### URLs issued by the API calls -/

/-- URL of `executeDeleteEvent`: every interpolated value goes through
`encodeURIComponent`. -/
def deleteEventUrl (mid eid sid aid : String) : String :=
  "/api/memories/" ++ encodeURIComponent mid ++ "/events/" ++ encodeURIComponent eid ++
    "?session_id=" ++ encodeURIComponent sid ++ "&actor_id=" ++ encodeURIComponent aid

/-- URL of `executeDeleteRecord`: every interpolated value goes through
`encodeURIComponent`. -/
def deleteRecordUrl (mid rid ns : String) : String :=
  "/api/memories/" ++ encodeURIComponent mid ++ "/records/" ++ encodeURIComponent rid ++
    "?namespace=" ++ encodeURIComponent ns

/-- URL of `executeGlobalListEvents`: the memory ID is interpolated RAW; the
session and actor IDs are percent-encoded. -/
def globalListEventsUrl (mid sid aid : String) : String :=
  "/api/memories/" ++ mid ++ "/events?session_id=" ++ encodeURIComponent sid ++
    "&actor_id=" ++ encodeURIComponent aid ++ "&max_results=50"

/-- URL of `executeListMemoryRecords`: raw memory ID, encoded namespace. -/
def listRecordsUrl (mid ns : String) : String :=
  "/api/memories/" ++ mid ++ "/records?namespace=" ++ encodeURIComponent ns ++
    "&max_results=50"

/-- URL of `executeAddEvent` (POST): raw memory ID. -/
def addEventUrl (mid : String) : String := "/api/memories/" ++ mid ++ "/records"

/-- URL of `executeRetrieveMemoryRecords` (POST): raw memory ID. -/
def retrieveUrl (mid : String) : String := "/api/memories/" ++ mid ++ "/retrieve"

/-- URL of `loadMemoryDetails`: raw memory ID. -/
def getMemoryUrl (mid : String) : String := "/api/memories/" ++ mid

/-! ### HTTP responses and the delete workflow -/

/-- A parsed HTTP response: status line plus the JSON body. -/
structure HttpResponse where
  httpStatus : Nat
  statusText : String
  body : JsValue

/-- `response.ok`: status in the 200–299 range. -/
def respOk (r : HttpResponse) : Bool := 200 ≤ r.httpStatus && r.httpStatus < 300

/-- The generic error message `HTTP ${status}: ${statusText}` thrown for a
non-ok response everywhere except `executeAddEvent`. -/
def httpErrorMessage (r : HttpResponse) : String :=
  "HTTP " ++ toString r.httpStatus ++ ": " ++ r.statusText

/-- Outcome of a delete workflow on the client: the cache after the call, the
results container after the call, the blocking alert (if any), the success
toast (if any), and the HTTP requests issued. -/
structure DeleteOutcome where
  cache : List (String × JsValue)
  container : List RElem
  alertMsg : Option String
  toast : Option String
  requests : List String

/-- The DOM mutation of `executeDeleteEvent` after a successful DELETE: find
the row, capture `row.closest('.table-responsive').previousElementSibling`
BEFORE removing the row, remove the row, then — only if that previous sibling
exists and contains a `.badge` — set the badge text to the new cache size.
`displayEvents` renders the badge INSIDE the wrapper, whose previous sibling
is null, so the badge is never found there. -/
def deleteEventDom (container : List RElem) (eid : String) (newCount : Nat) : List RElem :=
  match container.findIdx? (fun e => (rowsOf e).contains eid) with
  | none => container
  | some i =>
    let afterRow := listModify container i (fun e => removeRowElem e eid)
    let badge : Option Nat :=
      if i = 0 then none
      else match (container.get? (i - 1)).bind elemBadge with
        | some _ => some (i - 1)
        | none => none
    match badge with
    | none => afterRow
    | some j => listModify afterRow j (fun e => setBadgeText e (toString newCount ++ " event(s)"))

/-- `executeDeleteEvent(eventId, sessionId, actorId)`: no-op without a selected
memory; on a non-ok response or a network error, alert and change nothing; on
success, delete the key from the cache, remove the row, and attempt the badge
update described in `deleteEventDom`. -/
def executeDeleteEvent (currentMemory : Option String) (cache : List (String × JsValue))
    (container : List RElem) (eid sid aid : String) (resp : Except String HttpResponse) :
    DeleteOutcome :=
  match currentMemory with
  | none => ⟨cache, container, none, none, []⟩
  | some mid =>
    let url := deleteEventUrl mid eid sid aid
    match resp with
    | .error msg => ⟨cache, container, some ("Error deleting event: " ++ msg), none, [url]⟩
    | .ok r =>
      if respOk r then
        let cache2 := delKey cache eid
        ⟨cache2, deleteEventDom container eid cache2.length, none,
          some "Event deleted successfully", [url]⟩
      else
        ⟨cache, container, some ("Error deleting event: " ++ httpErrorMessage r), none, [url]⟩

/-- `textContent` of a fragment of inner HTML: tags stripped. -/
def stripTagsAux : List Char → Bool → List Char
  | [], _ => []
  | c :: rest, true => if c = '>' then stripTagsAux rest false else stripTagsAux rest true
  | c :: rest, false => if c = '<' then stripTagsAux rest true else c :: stripTagsAux rest false

/-- `textContent` of an element whose inner HTML is `s`. -/
def stripTags (s : String) : String := ⟨stripTagsAux s.data false⟩

/-- The regex `/Namespace: <code>([^<]+)<\/code>/` of `executeDeleteRecord`,
applied to a `textContent` string: the capture after the literal
`Namespace: <code>`, which must be non-empty, `<`-free, and followed by
`</code>`.  On a `textContent` input (tags already stripped) it never
matches, because the literal contains `<`. -/
def matchNamespaceCode (s : String) : Option String :=
  match findSubstrAux "Namespace: <code>".data s.data 0 with
  | none => none
  | some i =>
    let after := s.data.drop (i + "Namespace: <code>".data.length)
    let cap := after.takeWhile (fun c => c ≠ '<')
    if cap.length = 0 then none
    else if isPrefixList "</code>".data (after.drop cap.length) then some ⟨cap⟩
    else none

/-- The DOM mutation of `executeDeleteRecord` after a successful DELETE: find
the row, capture the wrapper's previous sibling's `small` BEFORE removing the
row, remove the row, then rewrite the `small` from the namespace its regex
recovers from the OLD `textContent` (always empty, since `textContent` has no
`<code>` literal) and the new cache size. -/
def deleteRecordDom (container : List RElem) (rid : String) (newCount : Nat) : List RElem :=
  match container.findIdx? (fun e => (rowsOf e).contains rid) with
  | none => container
  | some i =>
    let afterRow := listModify container i (fun e => removeRowElem e rid)
    match (if i = 0 then none else (container.get? (i - 1)).bind elemSmall) with
    | none => afterRow
    | some small =>
      let nsShown := (matchNamespaceCode (stripTags small)).getD ""
      listModify afterRow (i - 1) (fun e => setSmallText e
        ("Namespace: <code>" ++ nsShown ++ "</code> • Found " ++ toString newCount ++
          " record(s)"))

/-- `executeDeleteRecord(recordId, namespace)`, analogous to
`executeDeleteEvent`. -/
def executeDeleteRecord (currentMemory : Option String) (cache : List (String × JsValue))
    (container : List RElem) (rid ns : String) (resp : Except String HttpResponse) :
    DeleteOutcome :=
  match currentMemory with
  | none => ⟨cache, container, none, none, []⟩
  | some mid =>
    let url := deleteRecordUrl mid rid ns
    match resp with
    | .error msg =>
      ⟨cache, container, some ("Error deleting memory record: " ++ msg), none, [url]⟩
    | .ok r =>
      if respOk r then
        let cache2 := delKey cache rid
        ⟨cache2, deleteRecordDom container rid cache2.length, none,
          some "Memory record deleted successfully", [url]⟩
      else
        ⟨cache, container, some ("Error deleting memory record: " ++ httpErrorMessage r),
          none, [url]⟩

/-! ### Guarded entry points for delete and view-JSON actions -/

/-- What `confirmDeleteEvent` would run when the confirmation button is
pressed: the modal message and the `sessionId`/`actorId` values read from the
cached event. -/
structure DeletePlan where
  message : String
  arg1 : String
  arg2 : String
deriving DecidableEq

/-- `confirmDeleteEvent(eventId)`: look the event up in the cache; when the
lookup is falsy, log and return WITHOUT opening a modal or touching anything;
otherwise open the confirmation modal wired to
`executeDeleteEvent(eventId, event.sessionId, event.actorId)`. -/
def confirmDeleteEvent (cache : List (String × JsValue)) (eid : String) : Option DeletePlan :=
  let ev := (getKey cache eid).getD .vUndefined
  if jsTruthy ev then
    some ⟨"Are you sure you want to delete event \"" ++ eid ++ "\"?",
      jsToString (getField ev "sessionId"), jsToString (getField ev "actorId")⟩
  else none

/-- `confirmDeleteRecord(recordId)`: as above, wired to
`executeDeleteRecord(recordId, record.namespace)`. -/
def confirmDeleteRecord (cache : List (String × JsValue)) (rid : String) : Option DeletePlan :=
  let rec0 := (getKey cache rid).getD .vUndefined
  if jsTruthy rec0 then
    some ⟨"Are you sure you want to delete memory record \"" ++ rid ++ "\"?",
      jsToString (getField rec0 "namespace"), ""⟩
  else none

/-- `showEventJson(eventId)`: open the JSON modal on the cached event, or do
nothing at all when the ID is not cached. -/
def showEventJson (cache : List (String × JsValue)) (eid : String) :
    Option (String × JsValue) :=
  if jsTruthy ((getKey cache eid).getD .vUndefined) then
    some ("Event: " ++ eid, (getKey cache eid).getD .vUndefined)
  else none

/-- `showRecordJson(recordId)`: as above, for records. -/
def showRecordJson (cache : List (String × JsValue)) (rid : String) :
    Option (String × JsValue) :=
  if jsTruthy ((getKey cache rid).getD .vUndefined) then
    some ("Memory Record: " ++ rid, (getKey cache rid).getD .vUndefined)
  else none

/-! ### Selection state -/

/-- The client state the selection handlers touch: the selected memory
(`currentMemory`), the two caches, and the visibility of the main detail
panel, the welcome message, and the sidebar info panel. -/
structure AppState where
  currentMemory : Option JsValue
  eventsCache : List (String × JsValue)
  recordsCache : List (String × JsValue)
  detailsVisible : Bool
  welcomeVisible : Bool
  infoVisible : Bool

/-- `handleMemorySelection` for a selected option value.  The empty value
(deselection) hides the details panel (showing the welcome message back) and
the info panel and returns; NOTHING else changes — in particular both caches
and `currentMemory` keep their values.  A non-empty value shows the info panel
and proceeds to `loadMemoryDetails` (the returned flag). -/
def handleMemorySelection (st : AppState) (selectedValue : String) : AppState × Bool :=
  if selectedValue = "" then
    ({ st with detailsVisible := false, welcomeVisible := true, infoVisible := false }, false)
  else
    ({ st with infoVisible := true }, true)

/-- `refreshData()`: reset `currentMemory`, clear the select control, hide the
details and info panels, and reload the memory list.  The two caches are not
touched. -/
def refreshData (st : AppState) : AppState :=
  { st with
    currentMemory := none
    detailsVisible := false
    welcomeVisible := true
    infoVisible := false }

/-! ### Error propagation of the list/search workflows -/

/-- `result.records` as `displayRecords` receives it: the `records` field of
the parsed body when it is an array, otherwise missing. -/
def bodyRecords (body : JsValue) : Option (List JsValue) :=
  match getField body "records" with
  | .vArr l => some l
  | _ => none

/-- The response handling of `executeRetrieveMemoryRecords` inside
`executeApiCall` (after validation): a network error or a non-ok status
renders `showError` with the prefixed generic `HTTP status: statusText`
message — the body's `detail` field is never read — and leaves the records
cache untouched; an ok response hands `result.records` to `displayRecords`. -/
def executeRetrieveOnResponse (cache : List (String × JsValue)) (ns : String)
    (resp : Except String HttpResponse) : List (String × JsValue) × List RElem :=
  match resp with
  | .error msg => (cache, [.errorBanner ("Error retrieving memory records: " ++ msg)])
  | .ok r =>
    if respOk r then displayRecords cache (bodyRecords r.body) ns
    else (cache, [.errorBanner ("Error retrieving memory records: " ++ httpErrorMessage r)])

/-- The response handling of `executeListMemoryRecords`, identical except for
the error prefix. -/
def executeListRecordsOnResponse (cache : List (String × JsValue)) (ns : String)
    (resp : Except String HttpResponse) : List (String × JsValue) × List RElem :=
  match resp with
  | .error msg => (cache, [.errorBanner ("Error loading memory records: " ++ msg)])
  | .ok r =>
    if respOk r then displayRecords cache (bodyRecords r.body) ns
    else (cache, [.errorBanner ("Error loading memory records: " ++ httpErrorMessage r)])

/-- The error message `executeAddEvent` throws on a non-ok response — the ONE
call that reads the body: `new Error(err.detail || response.statusText)`. -/
def addEventErrorMessage (body : JsValue) (statusText : String) : String :=
  jsToString (jsOrVal (getField body "detail") (.vStr statusText))

/-- Number of occurrences of a character in a string. -/
def countChar (s : String) (c : Char) : Nat := s.data.count c

/-- A two-event `listEvents` result, used to evaluate the delete workflow. -/
def c4Events : List JsValue :=
  [JsValue.vObj [("eventId", JsValue.vStr "e1")], JsValue.vObj [("eventId", JsValue.vStr "e2")]]

/-- Cache and rendered container after displaying `c4Events`. -/
def c4Displayed : List (String × JsValue) × List RElem :=
  displayEvents [] (some c4Events) "s1" "a1"

/-- Client state after `deleteEvent("e1")` succeeds with HTTP 200 on that
display. -/
def c4Outcome : DeleteOutcome :=
  executeDeleteEvent (some "m1") c4Displayed.1 c4Displayed.2 "e1" "s1" "a1"
    (.ok ⟨200, "OK", JsValue.vObj [("result", JsValue.vStr "ok")]⟩)

/-! ## Lemmas about the embedded primitives -/

theorem hasKey_setKey (m : List (String × JsValue)) (k k' : String) (v : JsValue) :
    hasKey (setKey m k v) k' = (k == k' || hasKey m k') := by
  induction m with
  | nil => simp [setKey, hasKey]
  | cons p rest ih =>
    by_cases h : p.1 = k
    · simp [setKey, hasKey, h]
    · simp [setKey, hasKey, h, ih]
      cases hb : (p.1 == k') <;> cases hc : (k == k') <;> simp [hb, hc]

theorem getKey_eq_none_of_hasKey_false (m : List (String × JsValue)) (k : String)
    (h : hasKey m k = false) : getKey m k = none := by
  induction m with
  | nil => rfl
  | cons p rest ih =>
    simp only [hasKey, Bool.or_eq_false_iff] at h
    simp [getKey, h.1, ih h.2]

theorem dollarSubst_of_no_dollar (m b a : List Char) :
    ∀ l : List Char, '$' ∉ l → dollarSubst m b a l = l := by
  intro l
  induction l with
  | nil => intro _; simp [dollarSubst]
  | cons c rest ih =>
    intro h
    have hc : ¬c = '$' := fun he => h (he ▸ List.mem_cons_self c rest)
    have hr : '$' ∉ rest := fun he => h (List.mem_cons_of_mem c he)
    cases rest with
    | nil => simp [dollarSubst]
    | cons d rest2 => simp [dollarSubst, hc, ih hr]

theorem hexDigit_mem (n : Nat) : hexDigit n ∈ hexChars := by
  unfold hexDigit List.getD
  cases h : hexChars.get? n with
  | none => simp [h]; decide
  | some c => simpa [h] using List.get?_mem h

theorem encodeChar_chars {c d : Char} (h : d ∈ encodeChar c) :
    isUnreservedChar d = true ∨ d = '%' ∨ d ∈ hexChars := by
  unfold encodeChar at h
  by_cases hu : isUnreservedChar c
  · simp [hu] at h
    exact Or.inl (h ▸ hu)
  · simp only [hu, if_neg, Bool.false_eq_true, if_false, List.mem_flatMap] at h
    obtain ⟨b, _, hmem⟩ := h
    simp only [List.mem_cons, List.not_mem_nil, or_false] at hmem
    rcases hmem with h1 | h2 | h3
    · exact Or.inr (Or.inl h1)
    · exact Or.inr (Or.inr (h2 ▸ hexDigit_mem _))
    · exact Or.inr (Or.inr (h3 ▸ hexDigit_mem _))

theorem mem_encodeURIComponent_chars {d : Char} {s : String}
    (h : d ∈ (encodeURIComponent s).data) :
    isUnreservedChar d = true ∨ d = '%' ∨ d ∈ hexChars := by
  simp only [encodeURIComponent, List.mem_flatMap] at h
  obtain ⟨c, _, hc⟩ := h
  exact encodeChar_chars hc

/-- A character that is not unreserved, not `%`, and not an uppercase hex digit
never appears in an `encodeURIComponent` output. -/
theorem not_mem_encodeURIComponent {d : Char} (h1 : isUnreservedChar d = false)
    (h2 : d ≠ '%') (h3 : d ∉ hexChars) (s : String) :
    d ∉ (encodeURIComponent s).data := by
  intro hmem
  rcases mem_encodeURIComponent_chars hmem with h | h | h
  · rw [h1] at h; exact Bool.false_ne_true h
  · exact h2 h
  · exact h3 h

theorem count_encodeURIComponent_eq_zero {d : Char} (h1 : isUnreservedChar d = false)
    (h2 : d ≠ '%') (h3 : d ∉ hexChars) (s : String) :
    (encodeURIComponent s).data.count d = 0 :=
  List.count_eq_zero.mpr (not_mem_encodeURIComponent h1 h2 h3 s)

/-! ## Shared lemmas about rebuilding a cache with a fold of `setKey` -/

theorem hasKey_foldl_set (l : List JsValue) (keyf : JsValue → String)
    (valf : JsValue → JsValue) (init : List (String × JsValue)) (k : String) :
    hasKey (l.foldl (fun m e => setKey m (keyf e) (valf e)) init) k = true ↔
      (∃ e ∈ l, keyf e = k) ∨ hasKey init k = true := by
  induction l generalizing init with
  | nil => simp
  | cons e rest ih =>
    rw [List.foldl_cons, ih, hasKey_setKey]
    simp only [List.mem_cons, Bool.or_eq_true, beq_iff_eq]
    constructor
    · rintro (⟨x, hx, hk⟩ | h | h)
      · exact Or.inl ⟨x, Or.inr hx, hk⟩
      · exact Or.inl ⟨e, Or.inl rfl, h⟩
      · exact Or.inr h
    · rintro (⟨x, hx | hx, hk⟩ | h)
      · exact Or.inr (Or.inl (hx ▸ hk))
      · exact Or.inl ⟨x, hx, hk⟩
      · exact Or.inr (Or.inr h)

theorem hasKey_foldl_setIf (l : List JsValue) (p : JsValue → Bool) (keyf : JsValue → String)
    (valf : JsValue → JsValue) (init : List (String × JsValue)) (k : String) :
    hasKey (l.foldl (fun m e => if p e then setKey m (keyf e) (valf e) else m) init) k = true ↔
      (∃ e ∈ l, p e = true ∧ keyf e = k) ∨ hasKey init k = true := by
  induction l generalizing init with
  | nil => simp
  | cons e rest ih =>
    rw [List.foldl_cons]
    by_cases hp : p e = true
    · rw [if_pos hp, ih, hasKey_setKey]
      simp only [List.mem_cons, Bool.or_eq_true, beq_iff_eq]
      constructor
      · rintro (⟨x, hx, hk⟩ | h | h)
        · exact Or.inl ⟨x, Or.inr hx, hk⟩
        · exact Or.inl ⟨e, Or.inl rfl, hp, h⟩
        · exact Or.inr h
      · rintro (⟨x, hx | hx, hpx, hk⟩ | h)
        · exact Or.inr (Or.inl (hx ▸ hk))
        · exact Or.inl ⟨x, hx, hpx, hk⟩
        · exact Or.inr (Or.inr h)
    · rw [if_neg hp, ih]
      simp only [List.mem_cons]
      constructor
      · rintro (⟨x, hx, hk⟩ | h)
        · exact Or.inl ⟨x, Or.inr hx, hk⟩
        · exact Or.inr h
      · rintro (⟨x, hx | hx, hpx, hk⟩ | h)
        · exact absurd (hx ▸ hpx) hp
        · exact Or.inl ⟨x, hx, hpx, hk⟩
        · exact Or.inr h

theorem isEmpty_false_of_ne_nil {l : List JsValue} (h : l ≠ []) : l.isEmpty = false := by
  cases l with
  | nil => exact absurd rfl h
  | cons a rest => rfl

/-! ## Claims -/

/-- C1 (amended): on a successful response carrying a NON-EMPTY result list,
`displayEvents`/`displayRecords` replace the corresponding cache wholesale —
its keys are exactly the IDs of the new result set (for records, of those
records with a truthy `recordId || memoryRecordId`), independently of the
prior cache.  But on a successful response whose result list is empty or
missing, the function returns after rendering the no-results message and the
prior cache is left UNCHANGED, so stale entries do linger. -/
theorem c1_cache_wholesale_replacement :
    (∀ prior evs sid aid, evs ≠ [] → ∀ k,
      hasKey (displayEvents prior (some evs) sid aid).1 k = true ↔ ∃ e ∈ evs, eventKey e = k)
  ∧ (∀ prior rs ns, rs ≠ [] → ∀ k,
      hasKey (displayRecords prior (some rs) ns).1 k = true ↔
        ∃ r ∈ rs, jsTruthy (recordKeyVal r) = true ∧ jsToString (recordKeyVal r) = k)
  ∧ (∀ prior sid aid, (displayEvents prior (some []) sid aid).1 = prior ∧
      (displayEvents prior none sid aid).1 = prior)
  ∧ (∀ prior ns, (displayRecords prior (some []) ns).1 = prior ∧
      (displayRecords prior none ns).1 = prior) := by
  refine ⟨?_, ?_, fun prior sid aid => ⟨rfl, rfl⟩, fun prior ns => ⟨rfl, rfl⟩⟩
  · intro prior evs sid aid h k
    simp only [displayEvents, isEmpty_false_of_ne_nil h, Bool.false_eq_true, if_false]
    rw [hasKey_foldl_set]
    simp [hasKey]
  · intro prior rs ns h k
    simp only [displayRecords, isEmpty_false_of_ne_nil h, Bool.false_eq_true, if_false]
    rw [hasKey_foldl_setIf]
    simp [hasKey]

/-- C1 witness: a one-event response makes the cache contain exactly that
event's key. -/
theorem c1_cache_wholesale_replacement_witness :
    hasKey (displayEvents [("zz", JsValue.vNull)]
      (some [JsValue.vObj [("eventId", JsValue.vStr "e1")]]) "s1" "a1").1 "e1" = true :=
  (c1_cache_wholesale_replacement.1 [("zz", JsValue.vNull)]
    [JsValue.vObj [("eventId", JsValue.vStr "e1")]] "s1" "a1"
    (List.cons_ne_nil _ _) "e1").mpr
    ⟨JsValue.vObj [("eventId", JsValue.vStr "e1")], List.mem_singleton.mpr rfl, rfl⟩

/-- C1 counterexample to the claim as stated: after listing `[{eventId:"e1"}]`
and then receiving a successful EMPTY result, the "No events found" message
renders but the stale cache entry `"e1"` is still present. -/
theorem c1_stale_cache_on_empty_result :
    (displayEvents
        (displayEvents [] (some [JsValue.vObj [("eventId", JsValue.vStr "e1")]]) "s1" "a1").1
        (some []) "s1" "a1").2 = [RElem.infoAlert "No events found."]
  ∧ hasKey (displayEvents
        (displayEvents [] (some [JsValue.vObj [("eventId", JsValue.vStr "e1")]]) "s1" "a1").1
        (some []) "s1" "a1").1 "e1" = true := by
  exact ⟨rfl, rfl⟩

/-- C2 (amended): deselecting the Memory hides the detail panel (bringing the
welcome message back) and the info panel and issues no load, but it leaves
`currentMemory` and BOTH caches exactly as they were — they are not cleared.
`refreshData` likewise hides the panels and resets `currentMemory` without
touching either cache. -/
theorem c2_deselect_hides_panels_keeps_caches (st : AppState) :
    (handleMemorySelection st "").1.detailsVisible = false
  ∧ (handleMemorySelection st "").1.welcomeVisible = true
  ∧ (handleMemorySelection st "").1.infoVisible = false
  ∧ (handleMemorySelection st "").1.eventsCache = st.eventsCache
  ∧ (handleMemorySelection st "").1.recordsCache = st.recordsCache
  ∧ (handleMemorySelection st "").1.currentMemory = st.currentMemory
  ∧ (handleMemorySelection st "").2 = false
  ∧ (refreshData st).eventsCache = st.eventsCache
  ∧ (refreshData st).recordsCache = st.recordsCache
  ∧ (refreshData st).currentMemory = none := by
  refine ⟨rfl, rfl, rfl, rfl, rfl, rfl, rfl, rfl, rfl, rfl⟩

/-- C2 counterexample to the claim as stated: deselecting from a state whose
caches hold one event and one record hides both panels but leaves both caches
non-empty — they are NOT left empty. -/
theorem c2_deselect_leaves_caches_nonempty :
    (handleMemorySelection
        ⟨some (JsValue.vObj []), [("e1", JsValue.vObj [])], [("r1", JsValue.vObj [])],
          true, false, true⟩ "").1.detailsVisible = false
  ∧ (handleMemorySelection
        ⟨some (JsValue.vObj []), [("e1", JsValue.vObj [])], [("r1", JsValue.vObj [])],
          true, false, true⟩ "").1.infoVisible = false
  ∧ (handleMemorySelection
        ⟨some (JsValue.vObj []), [("e1", JsValue.vObj [])], [("r1", JsValue.vObj [])],
          true, false, true⟩ "").1.eventsCache.length = 1
  ∧ (handleMemorySelection
        ⟨some (JsValue.vObj []), [("e1", JsValue.vObj [])], [("r1", JsValue.vObj [])],
          true, false, true⟩ "").1.recordsCache.length = 1 := by
  exact ⟨rfl, rfl, rfl, rfl⟩

/-- C5 (amended): every EVENT row rendered from a successful response has a
cache entry under its row ID, and every RECORD row whose record carries a
truthy `recordId || memoryRecordId` has a cache entry under its row ID.  A
record lacking both IDs, however, is still rendered as a row (labelled `N/A`)
while no cache entry is created for it, so its view-JSON and delete actions
cannot resolve it from the cache. -/
theorem c5_rows_backed_by_cache :
    (∀ prior evs sid aid, evs ≠ [] → ∀ rid,
       rid ∈ (displayEvents prior (some evs) sid aid).2.flatMap rowsOf →
       hasKey (displayEvents prior (some evs) sid aid).1 rid = true)
  ∧ (∀ prior rs ns, rs ≠ [] → ∀ r ∈ rs, jsTruthy (recordKeyVal r) = true →
       hasKey (displayRecords prior (some rs) ns).1 (recordRowId r) = true) := by
  constructor
  · intro prior evs sid aid h rid hmem
    simp only [displayEvents, isEmpty_false_of_ne_nil h, Bool.false_eq_true, if_false,
      List.flatMap_cons, List.flatMap_nil, rowsOf, List.append_nil, List.mem_map] at hmem ⊢
    obtain ⟨e, he, hk⟩ := hmem
    exact (hasKey_foldl_set _ _ _ _ _).mpr (Or.inl ⟨e, he, hk⟩)
  · intro prior rs ns h r hr htr
    have hrow : recordRowId r = jsToString (recordKeyVal r) := by
      simp [recordRowId, jsOrVal, htr]
    simp only [displayRecords, isEmpty_false_of_ne_nil h, Bool.false_eq_true, if_false]
    rw [hrow]
    exact (hasKey_foldl_setIf _ _ _ _ _ _).mpr (Or.inl ⟨r, hr, htr, rfl⟩)

/-- C5 witness: a record carrying a `recordId` is cached under its rendered
row ID. -/
theorem c5_rows_backed_by_cache_witness :
    hasKey (displayRecords [] (some [JsValue.vObj [("recordId", JsValue.vStr "r1")]]) "ns1").1
      (recordRowId (JsValue.vObj [("recordId", JsValue.vStr "r1")])) = true :=
  c5_rows_backed_by_cache.2 [] [JsValue.vObj [("recordId", JsValue.vStr "r1")]] "ns1"
    (List.cons_ne_nil _ _) _ (List.mem_singleton.mpr rfl) rfl

/-- C5 counterexample to the claim as stated: one record with NEITHER
`recordId` nor `memoryRecordId` renders one table row (`N/A`) while the
records cache stays empty, so that row has no corresponding cache entry. -/
theorem c5_idless_record_not_cached :
    (displayRecords [] (some [JsValue.vObj [("foo", JsValue.vStr "bar")]]) "ns1").2.flatMap
        rowsOf = ["N/A"]
  ∧ (displayRecords [] (some [JsValue.vObj [("foo", JsValue.vStr "bar")]]) "ns1").1 = []
  ∧ hasKey (displayRecords [] (some [JsValue.vObj [("foo", JsValue.vStr "bar")]]) "ns1").1
      "N/A" = false := ⟨rfl, rfl, rfl⟩

/-- C8: a failed deletion — non-2xx HTTP status or network error — shows a
blocking alert and leaves the client state untouched: the cache keeps every
entry, the rendered container (rows and counts) is identical, there is no
success toast, and the only request attempted was the one DELETE (never a
re-fetch). -/
theorem c8_failed_delete_leaves_state_unchanged :
    (∀ mid cache container eid sid aid r, respOk r = false →
       executeDeleteEvent (some mid) cache container eid sid aid (.ok r) =
         ⟨cache, container, some ("Error deleting event: " ++ httpErrorMessage r), none,
           [deleteEventUrl mid eid sid aid]⟩)
  ∧ (∀ mid cache container eid sid aid msg,
       executeDeleteEvent (some mid) cache container eid sid aid (.error msg) =
         ⟨cache, container, some ("Error deleting event: " ++ msg), none,
           [deleteEventUrl mid eid sid aid]⟩)
  ∧ (∀ mid cache container rid ns r, respOk r = false →
       executeDeleteRecord (some mid) cache container rid ns (.ok r) =
         ⟨cache, container, some ("Error deleting memory record: " ++ httpErrorMessage r),
           none, [deleteRecordUrl mid rid ns]⟩)
  ∧ (∀ mid cache container rid ns msg,
       executeDeleteRecord (some mid) cache container rid ns (.error msg) =
         ⟨cache, container, some ("Error deleting memory record: " ++ msg), none,
           [deleteRecordUrl mid rid ns]⟩) := by
  refine ⟨?_, fun _ _ _ _ _ _ _ => rfl, ?_, fun _ _ _ _ _ _ => rfl⟩
  · intro mid cache container eid sid aid r h
    simp [executeDeleteEvent, h]
  · intro mid cache container rid ns r h
    simp [executeDeleteRecord, h]

/-- C8 witness: a deletion failing with HTTP 500 alerts and changes nothing. -/
theorem c8_failed_delete_leaves_state_unchanged_witness :
    executeDeleteEvent (some "m1") [("e1", JsValue.vObj [])]
        [RElem.tableResp (some "1 event(s)") ["e1"]] "e1" "s1" "a1"
        (.ok ⟨500, "Internal Server Error", JsValue.vObj []⟩) =
      ⟨[("e1", JsValue.vObj [])], [RElem.tableResp (some "1 event(s)") ["e1"]],
        some ("Error deleting event: " ++
          httpErrorMessage ⟨500, "Internal Server Error", JsValue.vObj []⟩), none,
        [deleteEventUrl "m1" "e1" "s1" "a1"]⟩ :=
  c8_failed_delete_leaves_state_unchanged.1 "m1" [("e1", JsValue.vObj [])]
    [RElem.tableResp (some "1 event(s)") ["e1"]] "e1" "s1" "a1"
    ⟨500, "Internal Server Error", JsValue.vObj []⟩ rfl

/-- C10: triggering the view-JSON or delete action for an ID that is absent
from the corresponding cache is a no-op: the handler returns before opening a
confirmation or JSON modal, so no plan to issue an HTTP request is produced
and neither the caches nor the rendered view are touched. -/
theorem c10_uncached_id_actions_are_noops :
    (∀ cache eid, hasKey cache eid = false → confirmDeleteEvent cache eid = none)
  ∧ (∀ cache rid, hasKey cache rid = false → confirmDeleteRecord cache rid = none)
  ∧ (∀ cache eid, hasKey cache eid = false → showEventJson cache eid = none)
  ∧ (∀ cache rid, hasKey cache rid = false → showRecordJson cache rid = none) := by
  refine ⟨?_, ?_, ?_, ?_⟩ <;> intro cache i h <;>
    simp [confirmDeleteEvent, confirmDeleteRecord, showEventJson, showRecordJson,
      getKey_eq_none_of_hasKey_false _ _ h, jsTruthy]

/-- C10 witness: on an empty cache every such action is a no-op. -/
theorem c10_uncached_id_actions_are_noops_witness :
    confirmDeleteEvent [] "x1" = none ∧ confirmDeleteRecord [] "x1" = none
  ∧ showEventJson [] "x1" = none ∧ showRecordJson [] "x1" = none :=
  ⟨c10_uncached_id_actions_are_noops.1 [] "x1" rfl,
   c10_uncached_id_actions_are_noops.2.1 [] "x1" rfl,
   c10_uncached_id_actions_are_noops.2.2.1 [] "x1" rfl,
   c10_uncached_id_actions_are_noops.2.2.2 [] "x1" rfl⟩

theorem jsReplaceFirst_no_dollar (s pat repl : String) (h : '$' ∉ repl.data) :
    jsReplaceFirst s pat repl = replaceFirstPlain s pat repl := by
  have hds : ∀ m b a : List Char, dollarSubst m b a repl.data = repl.data :=
    fun m b a => dollarSubst_of_no_dollar m b a _ h
  unfold jsReplaceFirst replaceFirstPlain
  simp only [hds]

/-- C3 (amended): only `executeAddEvent` reads the response body of a failed
call, throwing `err.detail || response.statusText` (so a truthy string
`detail` is preferred there); every other API call — `retrieveRecords` and
`listRecords` in particular — throws the generic `HTTP status: statusText`
message without reading the body, renders it (workflow-prefixed) as the error
banner, and leaves the records cache untouched. -/
theorem c3_detail_only_in_add_event :
    (∀ cache ns r, respOk r = false →
       executeRetrieveOnResponse cache ns (.ok r) =
         (cache, [.errorBanner ("Error retrieving memory records: " ++ httpErrorMessage r)]))
  ∧ (∀ cache ns r, respOk r = false →
       executeListRecordsOnResponse cache ns (.ok r) =
         (cache, [.errorBanner ("Error loading memory records: " ++ httpErrorMessage r)]))
  ∧ (∀ body st d, getField body "detail" = .vStr d → d ≠ "" →
       addEventErrorMessage body st = d)
  ∧ (∀ body st, getField body "detail" = .vUndefined →
       addEventErrorMessage body st = st) := by
  refine ⟨?_, ?_, ?_, ?_⟩
  · intro cache ns r h
    simp [executeRetrieveOnResponse, h]
  · intro cache ns r h
    simp [executeListRecordsOnResponse, h]
  · intro body st d hd hne
    simp [addEventErrorMessage, jsOrVal, hd, jsTruthy, hne, jsToString]
  · intro body st hd
    simp [addEventErrorMessage, jsOrVal, hd, jsTruthy, jsToString]

/-- C3 witness: a 500 on retrieve renders the generic banner and keeps the
cached record; the add-event error path does extract a `detail` string. -/
theorem c3_detail_only_in_add_event_witness :
    executeRetrieveOnResponse [("r1", JsValue.vObj [])] "ns1"
        (.ok ⟨500, "Internal Server Error",
          JsValue.vObj [("detail", JsValue.vStr "index unavailable")]⟩) =
      ([("r1", JsValue.vObj [])],
       [RElem.errorBanner ("Error retrieving memory records: " ++
         httpErrorMessage ⟨500, "Internal Server Error",
           JsValue.vObj [("detail", JsValue.vStr "index unavailable")]⟩)])
  ∧ addEventErrorMessage (JsValue.vObj [("detail", JsValue.vStr "index unavailable")])
      "Internal Server Error" = "index unavailable" :=
  ⟨c3_detail_only_in_add_event.1 [("r1", JsValue.vObj [])] "ns1"
      ⟨500, "Internal Server Error",
        JsValue.vObj [("detail", JsValue.vStr "index unavailable")]⟩ rfl,
   c3_detail_only_in_add_event.2.2.1
      (JsValue.vObj [("detail", JsValue.vStr "index unavailable")])
      "Internal Server Error" "index unavailable" rfl (by decide)⟩

/-- C3 counterexample to the claim as stated: a failed `retrieveRecords` with
status 500 and body `detail: "index unavailable"` renders the banner
"Error retrieving memory records: HTTP 500: Internal Server Error", which does
NOT contain "index unavailable" — the generic status text wins because the
body is never read on this path (the prior cache is indeed unchanged). -/
theorem c3_retrieve_banner_ignores_detail :
    (executeRetrieveOnResponse [("r1", JsValue.vObj [])] "ns1"
        (.ok ⟨500, "Internal Server Error",
          JsValue.vObj [("detail", JsValue.vStr "index unavailable")]⟩)).2 =
      [RElem.errorBanner "Error retrieving memory records: HTTP 500: Internal Server Error"]
  ∧ containsSubstr "Error retrieving memory records: HTTP 500: Internal Server Error"
      "index unavailable" = false
  ∧ hasKey (executeRetrieveOnResponse [("r1", JsValue.vObj [])] "ns1"
        (.ok ⟨500, "Internal Server Error",
          JsValue.vObj [("detail", JsValue.vStr "index unavailable")]⟩)).1 "r1" = true := by
  exact ⟨rfl, by decide, rfl⟩

/-- C4 (evaluating the code at the failing input): after `listEvents` shows
two events (badge "2 event(s)"), a successful `deleteEvent("e1")` removes the
cache entry and the rendered row, keeps every other entry, issues only the one
DELETE request — but the count badge still reads "2 event(s)": the code looks
for the badge in `row.closest('.table-responsive').previousElementSibling`,
while `displayEvents` renders the badge inside the wrapper itself, whose
previous sibling is null, so the update is silently skipped. -/
theorem c4_delete_event_badge_not_decremented :
    hasKey c4Outcome.cache "e1" = false
  ∧ hasKey c4Outcome.cache "e2" = true
  ∧ c4Outcome.cache.length = 1
  ∧ c4Outcome.container.flatMap rowsOf = ["e2"]
  ∧ c4Outcome.container.flatMap (fun e => (elemBadge e).toList) = ["2 event(s)"]
  ∧ c4Displayed.2.flatMap (fun e => (elemBadge e).toList) = ["2 event(s)"]
  ∧ c4Outcome.alertMsg = none
  ∧ c4Outcome.toast = some "Event deleted successfully"
  ∧ c4Outcome.requests = [deleteEventUrl "m1" "e1" "s1" "a1"] := by
  refine ⟨rfl, rfl, rfl, rfl, rfl, rfl, rfl, rfl, rfl⟩

/-- C6 (amended): the two delete operations percent-encode every value they
interpolate into the URL — so no input can smuggle a space or an extra
`&`/`?` separator into those URLs — and the list operations percent-encode
their query values (session, actor, namespace); but the memory ID is
interpolated RAW in the non-delete URLs (list events, list records, add
event, retrieve, get memory). -/
theorem c6_url_percent_encoding :
    (∀ mid eid sid aid, ' ' ∉ (deleteEventUrl mid eid sid aid).data
       ∧ countChar (deleteEventUrl mid eid sid aid) '&' = 1
       ∧ countChar (deleteEventUrl mid eid sid aid) '?' = 1)
  ∧ (∀ mid rid ns, ' ' ∉ (deleteRecordUrl mid rid ns).data
       ∧ countChar (deleteRecordUrl mid rid ns) '&' = 0
       ∧ countChar (deleteRecordUrl mid rid ns) '?' = 1)
  ∧ (∀ mid sid aid, globalListEventsUrl mid sid aid =
       "/api/memories/" ++ mid ++ "/events?session_id=" ++ encodeURIComponent sid ++
         "&actor_id=" ++ encodeURIComponent aid ++ "&max_results=50")
  ∧ (∀ mid ns, listRecordsUrl mid ns =
       "/api/memories/" ++ mid ++ "/records?namespace=" ++ encodeURIComponent ns ++
         "&max_results=50")
  ∧ (∀ mid, addEventUrl mid = "/api/memories/" ++ mid ++ "/records"
       ∧ retrieveUrl mid = "/api/memories/" ++ mid ++ "/retrieve"
       ∧ getMemoryUrl mid = "/api/memories/" ++ mid) := by
  have hspc : ∀ s : String, (encodeURIComponent s).data.count ' ' = 0 :=
    count_encodeURIComponent_eq_zero (by decide) (by decide) (by decide)
  have hamp : ∀ s : String, (encodeURIComponent s).data.count '&' = 0 :=
    count_encodeURIComponent_eq_zero (by decide) (by decide) (by decide)
  have hque : ∀ s : String, (encodeURIComponent s).data.count '?' = 0 :=
    count_encodeURIComponent_eq_zero (by decide) (by decide) (by decide)
  refine ⟨?_, ?_, fun _ _ _ => rfl, fun _ _ => rfl, fun _ => ⟨rfl, rfl, rfl⟩⟩
  · intro mid eid sid aid
    refine ⟨List.count_eq_zero.mp ?_, ?_, ?_⟩
    · simp only [deleteEventUrl, String.data_append, List.count_append, hspc]
      decide
    · simp only [countChar, deleteEventUrl, String.data_append, List.count_append, hamp]
      decide
    · simp only [countChar, deleteEventUrl, String.data_append, List.count_append, hque]
      decide
  · intro mid rid ns
    refine ⟨List.count_eq_zero.mp ?_, ?_, ?_⟩
    · simp only [deleteRecordUrl, String.data_append, List.count_append, hspc]
      decide
    · simp only [countChar, deleteRecordUrl, String.data_append, List.count_append, hamp]
      decide
    · simp only [countChar, deleteRecordUrl, String.data_append, List.count_append, hque]
      decide

/-- C6 counterexample to the claim as stated: `executeGlobalListEvents` embeds
the memory ID raw — memory ID `"a b"` yields a URL with a literal space even
though its percent-encoding would be `"a%20b"`. -/
theorem c6_raw_memory_id_in_list_events_url :
    globalListEventsUrl "a b" "s1" "u1" =
      "/api/memories/a b/events?session_id=s1&actor_id=u1&max_results=50"
  ∧ encodeURIComponent "a b" = "a%20b"
  ∧ ' ' ∈ (globalListEventsUrl "a b" "s1" "u1").data := by
  refine ⟨by decide, by decide, by decide⟩

/-- C9 (amended): with a missing or empty namespaces list the result is
"/default/"; with ANY non-empty list the result is `namespaces[0]` (further
namespaces are ignored) with only the FIRST occurrence of the placeholder
substituted, following JavaScript `String.replace` semantics with a string
pattern (for a dollar-free `strategyId` that is the plain first-occurrence
splice; later occurrences of the placeholder are left in place). -/
theorem c9_namespace_first_occurrence_substituted :
    ∀ (ns0 : String) (rest : List String) (sid : String), '$' ∉ sid.data →
      getSimplifiedNamespace ⟨some (ns0 :: rest), sid⟩ =
        replaceFirstPlain ns0 "{memoryStrategyId}" sid
      ∧ getSimplifiedNamespace ⟨none, sid⟩ = "/default/"
      ∧ getSimplifiedNamespace ⟨some [], sid⟩ = "/default/" := by
  intro ns0 rest sid h
  refine ⟨?_, rfl, rfl⟩
  show (if containsSubstr ns0 "{memoryStrategyId}" then
      jsReplaceFirst ns0 "{memoryStrategyId}" sid else ns0) =
    replaceFirstPlain ns0 "{memoryStrategyId}" sid
  by_cases hc : containsSubstr ns0 "{memoryStrategyId}" = true
  · rw [if_pos hc]
    exact jsReplaceFirst_no_dollar ns0 "{memoryStrategyId}" sid h
  · rw [if_neg hc]
    unfold containsSubstr at hc
    unfold replaceFirstPlain
    rw [Option.not_isSome_iff_eq_none.mp hc]

/-- C9 witness: the spec's own example substitutes the single placeholder,
also when further namespaces follow the first. -/
theorem c9_namespace_first_occurrence_substituted_witness :
    getSimplifiedNamespace ⟨some ["/strategy/{memoryStrategyId}/"], "S1"⟩ =
      replaceFirstPlain "/strategy/{memoryStrategyId}/" "{memoryStrategyId}" "S1"
  ∧ getSimplifiedNamespace ⟨some ["/strategy/{memoryStrategyId}/", "/second/"], "S1"⟩ =
      replaceFirstPlain "/strategy/{memoryStrategyId}/" "{memoryStrategyId}" "S1"
  ∧ replaceFirstPlain "/strategy/{memoryStrategyId}/" "{memoryStrategyId}" "S1" =
      "/strategy/S1/"
  ∧ getSimplifiedNamespace ⟨none, "S1"⟩ = "/default/" :=
  ⟨(c9_namespace_first_occurrence_substituted "/strategy/{memoryStrategyId}/" [] "S1"
      (by decide)).1,
   (c9_namespace_first_occurrence_substituted "/strategy/{memoryStrategyId}/" ["/second/"]
      "S1" (by decide)).1,
   by decide,
   (c9_namespace_first_occurrence_substituted "/strategy/{memoryStrategyId}/" [] "S1"
      (by decide)).2.1⟩

/-- C9 counterexample to the claim as stated: with two placeholder
occurrences, only the first is substituted, so the returned namespace still
contains the raw placeholder token instead of being `namespaces[0]` with the
placeholder substituted throughout (`"/S1/S1/"`). -/
theorem c9_second_placeholder_left_in_place :
    getSimplifiedNamespace ⟨some ["/{memoryStrategyId}/{memoryStrategyId}/"], "S1"⟩ =
      "/S1/{memoryStrategyId}/"
  ∧ containsSubstr
      (getSimplifiedNamespace ⟨some ["/{memoryStrategyId}/{memoryStrategyId}/"], "S1"⟩)
      "{memoryStrategyId}" = true := by
  exact ⟨by decide, by decide⟩

theorem firstHit_eq_none (F : String → Option String) (l : List String)
    (h : ∀ f ∈ l, F f = none) : firstHit F l = none := by
  induction l with
  | nil => rfl
  | cons f rest ih =>
    simp only [firstHit, h f (List.mem_cons_self f rest)]
    exact ih (fun g hg => h g (List.mem_cons_of_mem f hg))

/-- When no input can score both a top-level hit and a nested hit, the
interleaved loop of `extractTextForPreview` agrees with running the six keys
as two full passes (all top-level probes first). -/
theorem loopTextFields_eq_two_passes (obj : JsValue) (l : List String)
    (h : ∀ f ∈ l, (fieldHit obj f).isSome = true → ∀ g, nestedHit obj g = none) :
    loopTextFields obj l =
      (match firstHit (fieldHit obj) l with
       | some s => some s
       | none => firstHit (nestedHit obj) l) := by
  induction l with
  | nil => rfl
  | cons f rest ih =>
    cases hf : fieldHit obj f with
    | some s => simp [loopTextFields, firstHit, hf]
    | none =>
      cases hn : nestedHit obj f with
      | some s =>
        have hrest : firstHit (fieldHit obj) rest = none := by
          apply firstHit_eq_none
          intro g hg
          cases hfg : fieldHit obj g with
          | none => rfl
          | some t =>
            have hall := h g (List.mem_cons_of_mem f hg) (by simp [hfg])
            rw [hall f] at hn
            exact Option.noConfusion hn
        simp [loopTextFields, firstHit, hf, hn, hrest]
      | none =>
        have hh : ∀ g ∈ rest, (fieldHit obj g).isSome = true → ∀ g2, nestedHit obj g2 = none :=
          fun g hg => h g (List.mem_cons_of_mem f hg)
        simp only [loopTextFields, firstHit, hf, hn]
        exact ih hh

theorem getField_fullContent_of_ne (c m : JsValue) (f : String)
    (hne : f ≠ "content") (hne2 : f ≠ "metadata") :
    getField (fullContentObj c m) f = .vUndefined := by
  have e1 : ("content" == f) = false := beq_eq_false_iff_ne.mpr (fun he => hne he.symm)
  have e2 : ("metadata" == f) = false := beq_eq_false_iff_ne.mpr (fun he => hne2 he.symm)
  by_cases h1 : hasContentB c <;> by_cases h2 : hasContentB m <;>
    simp [fullContentObj, getField, h1, h2, List.find?, e1, e2]

theorem getField_fullContent_content (c m : JsValue) :
    getField (fullContentObj c m) "content" = if hasContentB c then c else .vUndefined := by
  have e2 : ("metadata" == "content") = false := by decide
  by_cases h1 : hasContentB c <;> by_cases h2 : hasContentB m <;>
    simp [fullContentObj, getField, h1, h2, List.find?, e2]

/-- On a combined content/metadata object a top-level hit is only possible at
the key `content` with a string-valued content, and then no nested probe can
hit (string indexing by name yields `undefined`). -/
theorem fullContent_top_hit_kills_nested (c m : JsValue) (f : String) (hf : f ∈ textFields)
    (h : (fieldHit (fullContentObj c m) f).isSome = true) :
    ∀ g, nestedHit (fullContentObj c m) g = none := by
  intro g
  by_cases hcf : f = "content"
  · subst hcf
    rw [fieldHit, getField_fullContent_content] at h
    by_cases h1 : hasContentB c = true
    · rw [if_pos h1] at h
      rw [nestedHit, getField_fullContent_content, if_pos h1]
      cases c with
      | vStr s =>
        by_cases ht : jsTruthy (JsValue.vStr s) = true
        · rw [if_pos ht]
          rfl
        · rw [if_neg ht]
      | vNum n => simp at h
      | vBool b => simp at h
      | vNull => simp at h
      | vUndefined => simp at h
      | vObj kvs => simp at h
      | vArr l => simp at h
    · rw [if_neg h1] at h
      simp at h
  · have hmf : f ≠ "metadata" := by
      intro he
      subst he
      revert hf
      decide
    rw [fieldHit, getField_fullContent_of_ne c m f hcf hmf] at h
    simp at h

/-- C7: on every combined content/metadata object that `generateContentPreview`
builds, the extractor behaves exactly as the claim describes: the six keys in
priority order (a top-level string at one of them, the spec's reading checking
all six at the top level before the nested-under-`content` level, agrees with
the code on this domain because the only possible top-level key is `content`
itself); failing that, the first string longer than 10 characters found by the
depth-limited scan in property-iteration order; failing that, the literal
"Complex data structure" marker. -/
theorem c7_preview_extraction_matches_spec (c m : JsValue) :
    extractTextForPreview (fullContentObj c m) =
      specTopLevelFirstPreview (fullContentObj c m) := by
  have htr : jsTruthy (fullContentObj c m) = true := rfl
  rw [extractTextForPreview, specTopLevelFirstPreview,
    loopTextFields_eq_two_passes (fullContentObj c m) textFields
      (fun f hf hh => fullContent_top_hit_kills_nested c m f hf hh)]
  simp only [htr]
  cases hA : firstHit (fieldHit (fullContentObj c m)) textFields <;>
    cases hB : firstHit (nestedHit (fullContentObj c m)) textFields <;> simp

end AgentCoreBrowser
